import Mathlib

/-!
Verification of the NEON portal-arcgis-asset-api repository: a shallow
embedding in Lean 4 of the offline build pipeline (build.js: coordinate
sanitization, geojson-to-sites conversion, registry generation) and the
online API (api.js: cache warm-up, cluster coordination, route handlers),
together with theorems settling the specification's claims.

JavaScript numbers are modelled as rationals extended with NaN and the two
infinities; JavaScript values relevant to the coordinate trees are modelled
as a sum of numbers, arrays, and an opaque "other" for every remaining
JS value (strings, objects, null, undefined, ...).
-/

/-- A JavaScript number: finite (modelled as a rational) or one of the
non-finite values NaN, +Infinity, -Infinity. -/
inductive JNum where
  | fin (q : ℚ)
  | nan
  | posInf
  | negInf
deriving DecidableEq, Repr

/-- A JavaScript value as seen by the coordinate-tree code of build.js:
a number, an array, or any other value (string, object, null, ...). -/
inductive JVal where
  | num (n : JNum)
  | arr (elems : List JVal)
  | other

/-- `Number.isFinite(c)`: true exactly for finite numbers; false for NaN,
the infinities, and every non-number value. -/
def isFiniteNum : JVal → Bool
  | .num (.fin _) => true
  | _ => false

/-- `Array.isArray(coords[0])`: true iff the list is nonempty and its first
element is an array (an empty list has `coords[0] === undefined`). -/
def headIsArr : List JVal → Bool
  | .arr _ :: _ => true
  | _ => false

/-- Warnings emitted by `sanitizeCoordinates` via `log.warn` (the code's
message for `nonNegativeX` misleadingly reads "negative x", but it fires
precisely when `x >= 0`). -/
inductive CoordWarning where
  | nonZeroZ
  | nonNegativeX
  | badShape
deriving DecidableEq, Repr

/-- Leaf case of `sanitizeCoordinates` (build.js lines 143-165): entered when
the first element of `coords` is not an array. Returns the sanitized value
together with the warnings logged, in order. -/
def sanitizeLeaf (coords : List JVal) : JVal × List CoordWarning :=
  if (coords.length = 2 ∨ coords.length = 3) ∧ coords.all isFiniteNum then
    let zWarns : List CoordWarning :=
      if coords.length = 3 then
        match coords.get? 2 with
        | some (.num (.fin z)) => if z ≠ 0 then [.nonZeroZ] else []
        | _ => []
      else []
    match coords with
    | .num (.fin x) :: .num (.fin y) :: _ =>
      if x < 0 then (.arr [.num (.fin y), .num (.fin x)], zWarns)
      else (.arr [], zWarns ++ [.nonNegativeX])
    | _ => (.arr [], zWarns)
  else (.arr [], [.badShape])

mutual

/-- `sanitizeCoordinates` (build.js lines 138-167): recursively flip each
leaf `[x, y(, z)]` with `x < 0` to `[y, x]`; drop (to `[]`) every other
leaf with a warning; return non-array input unchanged. The second
component collects the warnings logged along the way. -/
def sanitizeCoordinates : JVal → JVal × List CoordWarning
  | .num n => (.num n, [])
  | .other => (.other, [])
  | .arr coords =>
    if headIsArr coords then
      let rs := sanitizeList coords
      (.arr rs.1, rs.2)
    else
      sanitizeLeaf coords

/-- `coords.map(arr => sanitizeCoordinates(arr))`, collecting values and
warnings elementwise. -/
def sanitizeList : List JVal → List JVal × List CoordWarning
  | [] => ([], [])
  | v :: rest =>
    let r := sanitizeCoordinates v
    let rs := sanitizeList rest
    (r.1 :: rs.1, r.2 ++ rs.2)

end

theorem sanitizeList_fst (l : List JVal) :
    (sanitizeList l).1 = l.map (fun v => (sanitizeCoordinates v).1) := by
  induction l with
  | nil => simp [sanitizeList]
  | cons v rest ih => simp [sanitizeList, ih]

/-!
geojsonToSites (build.js lines 176-198).

The per-feature `getProperties` extractors return a property bag from which
`geojsonToSites` destructures `siteCode` and `areaKm2`; only those two
fields participate in the control flow and the merge, so the canonical
property bag is modelled by exactly those two optional fields.
-/

/-- The property bag returned by a feature's `getProperties` extractor,
restricted to the two fields `geojsonToSites` destructures. `none` models
a field that is absent (JS `undefined`). -/
structure Props where
  siteCode : Option String
  areaKm2 : Option ℚ
deriving DecidableEq, Repr

/-- JS truthiness of `siteCode`: present and not the empty string. -/
def truthyStr : Option String → Bool
  | some s => !(s == "")
  | none => false

/-- JS truthiness of `areaKm2`: present and nonzero (NaN, also falsy in JS,
does not arise for a rational). -/
def truthyNum : Option ℚ → Bool
  | some a => !(a == 0)
  | none => false

/-- A record's `geometry` object: a `type` string and a coordinate tree. -/
structure Geometry where
  typ : String
  coordinates : JVal

/-- One element of `geojson.features`: an optional geometry (absent models
a falsy `feature.geometry`) and a raw property bag of type `α`. -/
structure GRecord (α : Type) where
  geometry : Option Geometry
  properties : α

/-- The converted geojson object handed to `geojsonToSites`: it may lack a
`features` array entirely (`if (!geojson.features) return sites`). -/
structure GeoJSON (α : Type) where
  features : Option (List (GRecord α))

/-- A canonical per-site output document:
`{ type: 'Feature', properties, geometry }`. -/
structure SiteAsset where
  typ : String
  properties : Props
  geometry : Geometry

/-- `array.push(v)` on a JVal: defined only when the receiver is an array
(JS raises a TypeError otherwise, which `none` models). -/
def jpush (v w : JVal) : Option JVal :=
  match v with
  | .arr xs => some (.arr (xs ++ [w]))
  | _ => none

/-- First binding for a site code in the accumulated sites dictionary
(JS object property lookup; keys are unique by construction). -/
def lookupSite (sites : List (String × SiteAsset)) (sc : String) :
    Option SiteAsset :=
  (sites.find? (fun p => p.1 == sc)).map (·.2)

/-- Overwrite the binding of `sc` in the sites dictionary. -/
def updateSite (sites : List (String × SiteAsset)) (sc : String)
    (a : SiteAsset) : List (String × SiteAsset) :=
  sites.map (fun p => if p.1 == sc then (sc, a) else p)

/-- The body of the `geojson.features.forEach` callback in `geojsonToSites`:
process one record against the accumulated sites dictionary. `none` models
the TypeError raised when coordinates are pushed onto a non-array. -/
def sitesStep {α : Type} (getProperties : α → Props)
    (sites : List (String × SiteAsset)) (r : GRecord α) :
    Option (List (String × SiteAsset)) :=
  match r.geometry with
  | none => some sites
  | some g =>
    let geometry : Geometry := ⟨g.typ, (sanitizeCoordinates g.coordinates).1⟩
    let props := getProperties r.properties
    if truthyStr props.siteCode then
      let sc := props.siteCode.getD ""
      match lookupSite sites sc with
      | none => some (sites ++ [(sc, ⟨"Feature", props, geometry⟩)])
      | some existing =>
        let newArea : Option ℚ :=
          if truthyNum props.areaKm2 && truthyNum existing.properties.areaKm2
          then some (existing.properties.areaKm2.getD 0
                      + props.areaKm2.getD 0)
          else existing.properties.areaKm2
        match jpush existing.geometry.coordinates geometry.coordinates with
        | none => none
        | some coords =>
          some (updateSite sites sc
            ⟨existing.typ,
             { existing.properties with areaKm2 := newArea },
             ⟨existing.geometry.typ, coords⟩⟩)
    else some sites

/-- `geojsonToSites` (build.js lines 176-198): fold every record of the
geojson into a site-code-keyed dictionary of SiteAssets. `none` models a
TypeError escaping the forEach (crashing the build via the
unhandledRejection handler). -/
def geojsonToSites {α : Type} (geojson : GeoJSON α)
    (getProperties : α → Props) : Option (List (String × SiteAsset)) :=
  match geojson.features with
  | none => some []
  | some records => records.foldlM (sitesStep getProperties) []

/-!
generateOutfiles and featuresJSON (build.js lines 131-133 and 236-269).

`featuresJSON` is initialized with every feature key bound to `[]`;
`generateOutfiles` walks the features in order and, for each one, either
leaves its entry empty (invalid/missing source, or zero parsed sites) or
pushes the sorted site codes of its parsed sites. One feature's failure
never touches another feature's entry.
-/

/-- The per-feature configuration visible to `generateOutfiles`: the feature
key, the resolved geojson for its source (`none` models a missing or
invalid source, which the code skips with an error log), and the feature's
`getProperties` extractor. -/
structure FeatureCfg (α : Type) where
  key : String
  geojson : Option (GeoJSON α)
  getProperties : α → Props

/-- `featuresJSON[k].push(...codes)`: append `codes` to the entry of `k`. -/
def setKey (m : List (String × List String)) (k : String)
    (codes : List String) : List (String × List String) :=
  m.map (fun p => if p.1 == k then (p.1, p.2 ++ codes) else p)

/-- Lookup of a feature key in the generated features.json structure. -/
def lookupFJ (m : List (String × List String)) (k : String) :
    Option (List String) :=
  (m.find? (fun p => p.1 == k)).map (·.2)

/-- `Object.keys(sites).sort()`: the site codes of the parsed sites in
sorted order (JS default sort is lexicographic string comparison). -/
def sortedCodes (sites : List (String × SiteAsset)) : List String :=
  (sites.map (·.1)).insertionSort (· ≤ ·)

/-- One iteration of the `Object.keys(FEATURES).forEach` loop in
`generateOutfiles`: skip the feature when its source is invalid or it
yields zero sites, otherwise push its sorted site codes. `none` models a
TypeError escaping from `geojsonToSites`. -/
def outfilesStep {α : Type} (acc : List (String × List String))
    (cfg : FeatureCfg α) : Option (List (String × List String)) :=
  match cfg.geojson with
  | none => some acc
  | some gj =>
    match geojsonToSites gj cfg.getProperties with
    | none => none
    | some sites =>
      if sites.isEmpty then some acc
      else some (setKey acc cfg.key (sortedCodes sites))

/-- `generateOutfiles` restricted to its effect on `featuresJSON`: start
from every key bound to `[]` and process each feature independently. -/
def generateOutfiles {α : Type} (cfgs : List (FeatureCfg α)) :
    Option (List (String × List String)) :=
  cfgs.foldlM outfilesStep (cfgs.map (fun c => (c.key, ([] : List String))))

/-- The site codes a feature's entry ends up with: empty when the source is
invalid or no site parsed, the sorted parsed codes otherwise. -/
def expectedSiteCodes {α : Type} (cfg : FeatureCfg α) : List String :=
  match cfg.geojson with
  | none => []
  | some gj =>
    match geojsonToSites gj cfg.getProperties with
    | none => []
    | some sites => if sites.isEmpty then [] else sortedCodes sites

/-- The site codes successfully parsed for a feature (empty when the source
is invalid). -/
def parsedSiteCodes {α : Type} (cfg : FeatureCfg α) : List String :=
  match cfg.geojson with
  | none => []
  | some gj => ((geojsonToSites gj cfg.getProperties).getD []).map (·.1)

/-- The parse of a feature's geojson does not raise (vacuously true when the
source is invalid). -/
def parseOk {α : Type} (cfg : FeatureCfg α) : Prop :=
  ∀ gj, cfg.geojson = some gj → (geojsonToSites gj cfg.getProperties).isSome

/-!
The online API (api.js).

The memored cache shared across the process group is modelled as an
association list from string keys to stored values; a stored value is the
asset byte payload (`assetData.toJSON()`), the boolean `initialized` flag,
or the features registry object. The environment of a warm-up run records
what is on disk and which store operations succeed.
-/

/-- The byte payload of a file. -/
abbrev Bytes := List Nat

/-- The features registry parsed from features.json: feature key to list of
site codes. -/
abbrev Registry := List (String × List String)

/-- A value stored in the shared memored cache. -/
inductive CacheVal where
  | bytes (b : Bytes)
  | bool (b : Bool)
  | reg (r : Registry)
deriving DecidableEq, Repr

/-- The shared cache contents. -/
abbrev Cache := List (String × CacheVal)

/-- `cache.read(key)`: the stored value, or `none` when the key is absent. -/
def cacheRead (c : Cache) (k : String) : Option CacheVal :=
  (c.find? (fun p => p.1 == k)).map (·.2)

/-- `cache.store(key, value)`: bind `k` to `v`, replacing any previous
binding. -/
def cacheStore (c : Cache) (k : String) (v : CacheVal) : Cache :=
  (k, v) :: c.filter (fun p => !(p.1 == k))

/-- JS truthiness of a cache read result (`if (isInitialized)`): absent is
falsy, a stored boolean has its own truth value, any stored object
(buffer or registry) is truthy. -/
def truthyVal : Option CacheVal → Bool
  | none => false
  | some (.bool b) => b
  | some (.bytes _) => true
  | some (.reg _) => true

/-- `getAssetKey(feature, siteCode)`: the composite cache key
`feature + "." + siteCode` (api.js line 71). -/
def assetKey (feature siteCode : String) : String :=
  feature ++ "." ++ siteCode

/-- The feature keys of the registry (`Object.keys(features)`). -/
def registryKeys (reg : Registry) : List String := reg.map (·.1)

/-- `features[feature]`: the site codes for a feature key (first binding;
JS object keys are unique). Absent key gives `[]` for convenience; the
routes only consult it after a key check. -/
def registrySites (reg : Registry) (f : String) : List String :=
  ((reg.find? (fun p => p.1 == f)).map (·.2)).getD []

/-- All (feature, siteCode) pairs the nested forEach of `cacheAllAssets`
visits, in order. -/
def registryPairs (reg : Registry) : List (String × String) :=
  reg.flatMap (fun e => e.2.map (fun s => (e.1, s)))

/-- The environment of a warm-up run: what features.json parses to (`none`
when missing or malformed), the on-disk asset bytes per composite key, and
which cache store operations succeed. -/
structure Env where
  diskFeatures : Option Registry
  diskAsset : String → Option Bytes
  storeOk : String → Bool

/-- A settled entry of the `Promise.allSettled(cachePromises)` result:
the composite key and whether its load-and-store fulfilled. -/
structure AssetAttempt where
  key : String
  fulfilled : Bool
deriving DecidableEq, Repr

/-- Whether the load-and-store of one asset succeeds on its own: the file
is on disk and the store for its key succeeds. -/
def warmOk (env : Env) (k : String) : Bool :=
  (env.diskAsset k).isSome && env.storeOk k

/-- One asset's load-and-store (api.js lines 79-86): read the asset file
and store its bytes under the composite key; a failure of either settles
that promise rejected (`false`) and leaves the cache untouched. -/
def warmStep (env : Env) (k : String) (c : Cache) : Bool × Cache :=
  match env.diskAsset k with
  | some b => if env.storeOk k then (true, cacheStore c k (.bytes b))
              else (false, c)
  | none => (false, c)

/-- The per-pair work of `cacheAllAssets` (api.js lines 76-89): settle one
load-and-store per pair, returning the attempts in creation order. -/
def cacheAllAssetsGo (env : Env) (pairs : List (String × String))
    (c : Cache) : List AssetAttempt × Cache :=
  match pairs with
  | [] => ([], c)
  | (f, s) :: rest =>
    let step := warmStep env (assetKey f s) c
    let r := cacheAllAssetsGo env rest step.2
    (⟨assetKey f s, step.1⟩ :: r.1, r.2)

/-- `cacheAllAssets` (api.js lines 73-91): read the registry from the cache
and settle one load-and-store attempt per (feature, siteCode) pair.
`none` models the TypeError of `Object.keys(undefined)` when no registry
was cached, which never happens after `cacheFeatures` succeeds. -/
def cacheAllAssets (env : Env) (c : Cache) :
    Option (List AssetAttempt × Cache) :=
  match cacheRead c "features" with
  | some (.reg reg) => some (cacheAllAssetsGo env (registryPairs reg) c)
  | _ => none

/-- Messages a worker sends to the master process. -/
inductive WorkerMsg where
  | errorMsg
  | cacheReady
deriving DecidableEq, Repr

/-- The outcome of `verifyOrBuildCache`. -/
inductive WarmResult where
  | alreadyInit
  | configError
  | warmed (succeeded failed : Nat)
  | crashed
deriving DecidableEq, Repr

/-- The observable effects of one `verifyOrBuildCache` run: its outcome, the
final cache, the composite keys whose asset files were read, and the
messages sent to the master. -/
structure WarmOut where
  result : WarmResult
  cache : Cache
  loads : List String
  msgs : List WorkerMsg
deriving DecidableEq, Repr

/-- `verifyOrBuildCache` (api.js lines 107-134): return early when the
`initialized` flag is truthy; otherwise cache features.json (config error
when missing/malformed or its store fails), settle all asset attempts,
count them, mark the cache initialized, and signal readiness. `crashed`
models an awaited store rejecting with no handler. -/
def verifyOrBuildCache (env : Env) (c : Cache) : WarmOut :=
  if truthyVal (cacheRead c "initialized") then
    ⟨.alreadyInit, c, [], []⟩
  else
    match env.diskFeatures with
    | none => ⟨.configError, c, [], [.errorMsg]⟩
    | some reg =>
      if env.storeOk "features" then
        let c1 := cacheStore c "features" (.reg reg)
        match cacheAllAssets env c1 with
        | none => ⟨.crashed, c1, [], []⟩
        | some (results, c2) =>
          let succeeded := (results.filter (·.fulfilled)).length
          let failed := results.length - succeeded
          if env.storeOk "initialized" then
            ⟨.warmed succeeded failed,
             cacheStore c2 "initialized" (.bool true),
             results.map (·.key), [.cacheReady]⟩
          else ⟨.crashed, c2, results.map (·.key), []⟩
      else ⟨.configError, c, [], [.errorMsg]⟩

/-- Whether `verifyOrBuildCache` resolved `true` (the worker proceeds to
serve) rather than `false` or a rejection. -/
def warmReportsSuccess : WarmResult → Bool
  | .alreadyInit => true
  | .warmed _ _ => true
  | .configError => false
  | .crashed => false

/-- The exit the worker performs right after warm-up: `configError` resolves
`false` and the worker runs `process.exit(1)`; a rejection crashes the
worker; otherwise the worker keeps running and serves. -/
def workerExitCode : WarmResult → Option Nat
  | .configError => some 1
  | .crashed => some 1
  | _ => none

/-- What the master's message handler does (api.js lines 145-155). On an
error message it calls the undefined identifier `clogWithPid` — a
ReferenceError thrown in the handler, crashing the master with a non-zero
status before `process.exit(1)` is reached. On `cacheIsReady` it forks the
remaining workers when more than one CPU is available. -/
inductive MasterAction where
  | crashReferenceError
  | spawn (n : Nat)
  | noop
deriving DecidableEq, Repr

/-- Dispatch of the master's `cacheWarmer.on('message', ...)` handler. -/
def masterOnMessage (cpuCount : Nat) : WorkerMsg → MasterAction
  | .errorMsg => .crashReferenceError
  | .cacheReady => if cpuCount > 1 then .spawn (cpuCount - 1) else .noop

/-- How many additional serving processes an action forks. -/
def spawnedServers : MasterAction → Nat
  | .spawn n => n
  | _ => 0

/-- Whether the action terminates the master with a non-zero status. -/
def masterHaltsNonZero : MasterAction → Bool
  | .crashReferenceError => true
  | _ => false

/-- The outcome of `getAssetData`'s cache read as the route handler sees it:
a byte buffer, an `undefined` that resolves (absent entry or read error),
or a synchronous throw inside the promise executor. -/
inductive AssetRead where
  | data (b : Bytes)
  | absent
  | raised
deriving DecidableEq, Repr

/-- `Buffer.from(v)` on a stored cache value: bytes for a byte payload, a
TypeError for a boolean or plain-object value. -/
def bufferFrom : CacheVal → Option Bytes
  | .bytes b => some b
  | _ => none

/-- `getAssetData` (api.js lines 93-101): a read error or an absent entry
resolves `undefined` (`if (err || assetData === undefined) return
resolve()`); otherwise the stored value goes through `Buffer.from`. -/
def getAssetData (c : Cache) (readErr : Bool) (k : String) : AssetRead :=
  if readErr then .absent
  else
    match cacheRead c k with
    | none => .absent
    | some v =>
      match bufferFrom v with
      | some b => .data b
      | none => .raised

/-- The body of a response: an error text or the asset bytes. -/
inductive RespBody where
  | text (s : String)
  | asset (b : Bytes)
deriving DecidableEq, Repr

/-- An HTTP response of the leaf route: status, body, and the two headers
the handler may set. -/
structure Response where
  status : Nat
  body : RespBody
  contentType : Option String
  contentEncoding : Option String
deriving DecidableEq, Repr

/-- The `{API_ROOT}/:feature/:siteCode` handler (api.js lines 209-228):
400 when the feature is not a registry key, 400 when the site code is not
in the feature's list, 404 when the asset data resolves `undefined`, else
200 with the bytes and `Content-Type: application/json`. `none` models the
handler rejecting (Koa then answers 500), which only the `raised` read
outcome causes. -/
def leafRoute (features : Registry) (c : Cache) (readErr : Bool)
    (feature siteCode : String) : Option Response :=
  if !(registryKeys features).contains feature then
    some ⟨400, .text "Invalid Feature", none, none⟩
  else if !(registrySites features feature).contains siteCode then
    some ⟨400, .text "Site Code not valid for this Feature", none, none⟩
  else
    match getAssetData c readErr (assetKey feature siteCode) with
    | .raised => none
    | .absent =>
      some ⟨404, .text "Feature and Site Code are valid but asset not found",
            none, none⟩
    | .data b => some ⟨200, .asset b, some "application/json", none⟩

namespace GzipApi

/-!
The earlier server variant kept in src/unnamed/part_000: warm-up gzips
every asset file once as the cache is populated, and the leaf route serves
the stored bytes as-is under `Content-Encoding: gzip`. The gzip encoder is
an arbitrary byte-level function parameter, so a statement proved for every
`gz` separates "compressed once" from "compressed again per request". -/

/-- The cache population loop (part_000 lines 73-90): for every pair, read
the asset file, gzip it, store the compressed bytes under the composite
key; a missing file or failed store leaves that key untouched. -/
def warmGo (gz : Bytes → Bytes) (diskAsset : String → Option Bytes)
    (storeOk : String → Bool) (pairs : List (String × String)) (c : Cache) :
    Cache :=
  match pairs with
  | [] => c
  | (f, s) :: rest =>
    let k := assetKey f s
    let c1 :=
      match diskAsset k with
      | some b => if storeOk k then cacheStore c k (.bytes (gz b)) else c
      | none => c
    warmGo gz diskAsset storeOk rest c1

/-- Warm the whole cache from the registry (part_000 lines 73-90). -/
def warmCache (gz : Bytes → Bytes) (diskAsset : String → Option Bytes)
    (storeOk : String → Bool) (reg : Registry) (c : Cache) : Cache :=
  warmGo gz diskAsset storeOk (registryPairs reg) c

/-- `getAssetData` of the gzip variant (part_000 lines 38-46): no
`undefined` guard, so an absent entry reaches `Buffer.from(undefined)` and
throws; a read error rejects. -/
def getAssetData (c : Cache) (readErr : Bool) (k : String) : AssetRead :=
  if readErr then .raised
  else
    match cacheRead c k with
    | none => .raised
    | some v =>
      match bufferFrom v with
      | some b => .data b
      | none => .raised

/-- The leaf route of the gzip variant (part_000 lines 121-141): same
validation, but a 200 carries `Content-Encoding: gzip` and the body is the
stored (compressed) bytes unchanged. -/
def leafRoute (features : Registry) (c : Cache) (readErr : Bool)
    (feature siteCode : String) : Option Response :=
  if !(registryKeys features).contains feature then
    some ⟨400, .text "Invalid Feature", none, none⟩
  else if !(registrySites features feature).contains siteCode then
    some ⟨400, .text "Site Code not valid for this Feature", none, none⟩
  else
    match GzipApi.getAssetData c readErr (assetKey feature siteCode) with
    | .raised => none
    | .absent =>
      some ⟨404, .text "Feature and Site Code are valid but asset not found",
            none, none⟩
    | .data b => some ⟨200, .asset b, some "application/json", some "gzip"⟩

end GzipApi


/-!
Helper lemmas.
-/

theorem cacheRead_store_self (c : Cache) (k : String) (v : CacheVal) :
    cacheRead (cacheStore c k v) k = some v := by
  simp [cacheRead, cacheStore]

theorem cacheRead_store_other (c : Cache) (k k' : String) (v : CacheVal)
    (h : k' ≠ k) : cacheRead (cacheStore c k v) k' = cacheRead c k' := by
  simp only [cacheRead, cacheStore]
  rw [List.find?_cons_of_neg _ (by simp [Ne.symm h]), List.find?_filter]
  have hpred : (fun (a : String × CacheVal) =>
      decide ((!(a.1 == k)) = true ∧ (a.1 == k') = true)) =
      (fun (p : String × CacheVal) => p.1 == k') := by
    funext p
    by_cases hp : p.1 = k' <;> simp [hp, h]
  rw [hpred]

theorem dot_mem_assetKey (f s : String) : '.' ∈ (assetKey f s).data := by
  simp [assetKey, String.data_append]

theorem ne_assetKey_of_noDot (k f s : String) (h : '.' ∉ k.data) :
    k ≠ assetKey f s := by
  intro he
  exact h (he ▸ dot_mem_assetKey f s)

theorem warmStep_fst (env : Env) (k : String) (c : Cache) :
    (warmStep env k c).1 = warmOk env k := by
  rcases hd : env.diskAsset k with _ | b <;>
    by_cases hs : env.storeOk k <;> simp [warmStep, warmOk, hd, hs]

theorem warmStep_snd_of_ok (env : Env) (k : String) (c : Cache) (b : Bytes)
    (hd : env.diskAsset k = some b) (hs : env.storeOk k = true) :
    (warmStep env k c).2 = cacheStore c k (.bytes b) := by
  simp [warmStep, hd, hs]

theorem warmStep_snd_of_fail (env : Env) (k : String) (c : Cache)
    (hw : warmOk env k = false) : (warmStep env k c).2 = c := by
  rcases hd : env.diskAsset k with _ | b
  · simp [warmStep, hd]
  · have hs : env.storeOk k = false := by
      rcases hss : env.storeOk k
      · rfl
      · rw [warmOk, hd, hss] at hw; simp at hw
    simp [warmStep, hd, hs]

theorem warmStep_read_other (env : Env) (k k' : String) (c : Cache)
    (h : k' ≠ k) : cacheRead (warmStep env k c).2 k' = cacheRead c k' := by
  rcases hd : env.diskAsset k with _ | b
  · simp [warmStep, hd]
  · by_cases hs : env.storeOk k
    · simp [warmStep, hd, hs, cacheRead_store_other c k k' _ h]
    · simp [warmStep, hd, hs]

theorem cacheAllAssetsGo_fst (env : Env) (pairs : List (String × String))
    (c : Cache) :
    (cacheAllAssetsGo env pairs c).1 =
      pairs.map (fun p =>
        ⟨assetKey p.1 p.2, warmOk env (assetKey p.1 p.2)⟩) := by
  induction pairs generalizing c with
  | nil => simp [cacheAllAssetsGo]
  | cons p rest ih =>
    obtain ⟨f, s⟩ := p
    simp [cacheAllAssetsGo, warmStep_fst, ih]

theorem cacheAllAssetsGo_read (env : Env) (pairs : List (String × String))
    (c : Cache) (k : String) :
    cacheRead (cacheAllAssetsGo env pairs c).2 k =
      if (k ∈ pairs.map (fun p => assetKey p.1 p.2) ∧ warmOk env k)
      then (env.diskAsset k).map .bytes
      else cacheRead c k := by
  induction pairs generalizing c with
  | nil => simp [cacheAllAssetsGo]
  | cons p rest ih =>
    obtain ⟨f, s⟩ := p
    simp only [cacheAllAssetsGo]
    rw [ih]
    by_cases hk : k = assetKey f s
    · subst hk
      by_cases hw : warmOk env (assetKey f s)
      · rcases hdd : env.diskAsset (assetKey f s) with _ | b
        · rw [warmOk, hdd] at hw; simp at hw
        · have hs : env.storeOk (assetKey f s) = true := by
            rw [warmOk, hdd] at hw; simpa using hw
          by_cases hr : assetKey f s ∈ rest.map (fun p => assetKey p.1 p.2)
          · simp [hr, hw, hdd]
          · rw [if_neg (by simp [hr]),
              warmStep_snd_of_ok env (assetKey f s) c b hdd hs,
              cacheRead_store_self]
            simp [hw, hdd]
      · have hw' : warmOk env (assetKey f s) = false := by simpa using hw
        rw [warmStep_snd_of_fail env (assetKey f s) c hw']
        simp [hw']
    · rw [warmStep_read_other env _ k c hk]
      have hmem : (k ∈ assetKey f s :: rest.map (fun p => assetKey p.1 p.2))
          = (k ∈ rest.map (fun p => assetKey p.1 p.2)) := by
        simp [List.mem_cons, hk]
      simp only [List.map_cons, hmem]

theorem attempts_filter_length (env : Env) (pairs : List (String × String)) :
    (List.filter (·.fulfilled)
      (pairs.map (fun (p : String × String) =>
        (⟨assetKey p.1 p.2, warmOk env (assetKey p.1 p.2)⟩ :
          AssetAttempt)))).length =
    (pairs.filter (fun p => warmOk env (assetKey p.1 p.2))).length := by
  induction pairs with
  | nil => simp
  | cons p rest ih =>
    by_cases hw : warmOk env (assetKey p.1 p.2) <;>
      simp [List.filter_cons, hw, ih]

theorem registryPairs_mem (reg : Registry) (f s : String)
    (h : (f, s) ∈ registryPairs reg) : ∃ e ∈ reg, e.1 = f ∧ s ∈ e.2 := by
  simp only [registryPairs, List.mem_flatMap, List.mem_map] at h
  obtain ⟨e, he, s', hs', heq⟩ := h
  obtain ⟨h1, h2⟩ := Prod.mk.injEq .. ▸ heq
  exact ⟨e, he, h1, h2 ▸ hs'⟩

theorem find?_key_of_nodup (reg : Registry) (e : String × List String)
    (hnd : (registryKeys reg).Nodup) (he : e ∈ reg) :
    reg.find? (fun p => p.1 == e.1) = some e := by
  induction reg with
  | nil => cases he
  | cons a rest ih =>
    rcases List.mem_cons.mp he with rfl | hmem
    · simp [List.find?_cons_of_pos]
    · have ha : a.1 ≠ e.1 := by
        intro hae
        have : e.1 ∈ registryKeys rest :=
          List.mem_map.mpr ⟨e, hmem, rfl⟩
        rw [registryKeys, List.map_cons] at hnd
        exact (List.nodup_cons.mp hnd).1 (hae ▸ this)
      rw [List.find?_cons_of_neg _ (by simp [ha])]
      exact ih (List.nodup_cons.mp (by rwa [registryKeys, List.map_cons]
        at hnd)).2 hmem

theorem registrySites_of_mem (reg : Registry) (e : String × List String)
    (hnd : (registryKeys reg).Nodup) (he : e ∈ reg) :
    registrySites reg e.1 = e.2 := by
  rw [registrySites, find?_key_of_nodup reg e hnd he]
  rfl

theorem verifyOrBuildCache_eq_warmed (env : Env) (c : Cache) (reg : Registry)
    (hinit : truthyVal (cacheRead c "initialized") = false)
    (hreg : env.diskFeatures = some reg)
    (hsf : env.storeOk "features" = true)
    (hsi : env.storeOk "initialized" = true) :
    verifyOrBuildCache env c =
      ⟨.warmed
        (((cacheAllAssetsGo env (registryPairs reg)
            (cacheStore c "features" (.reg reg))).1.filter
              (·.fulfilled)).length)
        ((cacheAllAssetsGo env (registryPairs reg)
            (cacheStore c "features" (.reg reg))).1.length -
         ((cacheAllAssetsGo env (registryPairs reg)
            (cacheStore c "features" (.reg reg))).1.filter
              (·.fulfilled)).length),
       cacheStore (cacheAllAssetsGo env (registryPairs reg)
          (cacheStore c "features" (.reg reg))).2 "initialized" (.bool true),
       (cacheAllAssetsGo env (registryPairs reg)
          (cacheStore c "features" (.reg reg))).1.map (·.key),
       [.cacheReady]⟩ := by
  simp [verifyOrBuildCache, hinit, hreg, hsf, hsi, cacheAllAssets,
    cacheRead_store_self]

/-!
Claim theorems.
-/

/-- C2: during warm-up, every (feature, siteCode) pair of the registry gets
its own settled load-and-store attempt — one asset's failure never aborts
another's warming (each successfully loaded-and-stored asset ends up in
the final cache, a fact depending only on that asset's own outcome); the
warmer reports the succeeded count (the fulfilled attempts) and the failed
count (the rest), they sum to the total number of pairs; and regardless of
the failed count the cache is marked initialized, readiness is signalled,
and `verifyOrBuildCache` resolves true. Only a registry (features.json)
load failure escapes to the fatal path. -/
theorem claim2_settleAllWarmup (env : Env) (c : Cache) (reg : Registry)
    (hinit : truthyVal (cacheRead c "initialized") = false)
    (hreg : env.diskFeatures = some reg)
    (hsf : env.storeOk "features" = true)
    (hsi : env.storeOk "initialized" = true) :
    ∃ succeeded failed,
      (verifyOrBuildCache env c).result = .warmed succeeded failed ∧
      succeeded + failed = (registryPairs reg).length ∧
      succeeded = ((registryPairs reg).filter
        (fun p => warmOk env (assetKey p.1 p.2))).length ∧
      (∀ f s b, (f, s) ∈ registryPairs reg →
        env.diskAsset (assetKey f s) = some b →
        env.storeOk (assetKey f s) = true →
        cacheRead (verifyOrBuildCache env c).cache (assetKey f s)
          = some (.bytes b)) ∧
      truthyVal (cacheRead (verifyOrBuildCache env c).cache "initialized")
        = true ∧
      warmReportsSuccess (verifyOrBuildCache env c).result = true ∧
      (verifyOrBuildCache env c).msgs = [.cacheReady] := by
  have heq := verifyOrBuildCache_eq_warmed env c reg hinit hreg hsf hsi
  set c1 := cacheStore c "features" (.reg reg) with hc1
  set R := cacheAllAssetsGo env (registryPairs reg) c1 with hR
  have hfst : R.1 = (registryPairs reg).map (fun p =>
      ⟨assetKey p.1 p.2, warmOk env (assetKey p.1 p.2)⟩) :=
    cacheAllAssetsGo_fst env (registryPairs reg) c1
  have hsucc : (R.1.filter (·.fulfilled)).length =
      ((registryPairs reg).filter
        (fun p => warmOk env (assetKey p.1 p.2))).length := by
    rw [hfst]; exact attempts_filter_length env (registryPairs reg)
  refine ⟨(R.1.filter (·.fulfilled)).length,
    R.1.length - (R.1.filter (·.fulfilled)).length, ?_, ?_, hsucc, ?_, ?_,
    ?_, ?_⟩
  · rw [heq]
  · rw [Nat.add_sub_cancel' (List.length_filter_le _ _), hfst,
      List.length_map]
  · intro f s b hmem hdisk hstore
    rw [heq]
    show cacheRead (cacheStore R.2 "initialized" (.bool true))
      (assetKey f s) = some (.bytes b)
    rw [cacheRead_store_other _ _ _ _
      (Ne.symm (ne_assetKey_of_noDot _ f s (by decide)))]
    rw [cacheAllAssetsGo_read]
    rw [if_pos ⟨List.mem_map.mpr ⟨(f, s), hmem, rfl⟩,
      by simp [warmOk, hdisk, hstore]⟩, hdisk]
    rfl
  · rw [heq]
    show truthyVal (cacheRead (cacheStore R.2 "initialized" (.bool true))
      "initialized") = true
    rw [cacheRead_store_self]
    rfl
  · rw [heq]; rfl
  · rw [heq]

/-- C3: warm-up is idempotent — when the `initialized` flag is already
truthy, `verifyOrBuildCache` returns immediately with the cache literally
unchanged (every existing CacheEntry intact, no store performed), an empty
list of asset loads, no messages, and a successful result. -/
theorem claim3_warmupIdempotent (env : Env) (c : Cache)
    (hinit : truthyVal (cacheRead c "initialized") = true) :
    verifyOrBuildCache env c =
      ⟨.alreadyInit, c, [], []⟩ ∧
    warmReportsSuccess (verifyOrBuildCache env c).result = true := by
  have h : verifyOrBuildCache env c = ⟨.alreadyInit, c, [], []⟩ := by
    rw [verifyOrBuildCache, if_pos (by simp [hinit])]
  exact ⟨h, by rw [h]; rfl⟩

/-- Witness for C3 at a concrete already-initialized cache. -/
theorem claim3_witness :
    verifyOrBuildCache ⟨none, fun _ => none, fun _ => true⟩
        [("initialized", .bool true)] =
      ⟨.alreadyInit, [("initialized", .bool true)], [], []⟩ ∧
    warmReportsSuccess (verifyOrBuildCache
        ⟨none, fun _ => none, fun _ => true⟩
        [("initialized", .bool true)]).result = true :=
  claim3_warmupIdempotent _ _ rfl

/-- C7: when the elected warmer cannot obtain a valid registry
(features.json missing or malformed, i.e. `diskFeatures = none`) and the
cache is cold, `verifyOrBuildCache` resolves false with an error message to
the master; the worker exits non-zero, the master's handler on that message
crashes with a non-zero status (the `clogWithPid` ReferenceError fires
before its `process.exit(1)`), and no additional serving process is ever
spawned. -/
theorem claim7_abortedOnRegistryFailure (env : Env) (c : Cache) (cpu : Nat)
    (hreg : env.diskFeatures = none)
    (hinit : truthyVal (cacheRead c "initialized") = false) :
    (verifyOrBuildCache env c).result = .configError ∧
    (verifyOrBuildCache env c).msgs = [.errorMsg] ∧
    workerExitCode (verifyOrBuildCache env c).result = some 1 ∧
    masterOnMessage cpu .errorMsg = .crashReferenceError ∧
    spawnedServers (masterOnMessage cpu .errorMsg) = 0 ∧
    masterHaltsNonZero (masterOnMessage cpu .errorMsg) = true := by
  have h : verifyOrBuildCache env c = ⟨.configError, c, [], [.errorMsg]⟩ := by
    rw [verifyOrBuildCache, if_neg (by simp [hinit]), hreg]
  exact ⟨by rw [h], by rw [h], by rw [h]; rfl, rfl, rfl, rfl⟩

/-- Witness for C7 at a concrete environment with no features.json and a
cold cache, with 4 CPUs. -/
theorem claim7_witness :
    (verifyOrBuildCache ⟨none, fun _ => none, fun _ => true⟩ []).result
      = .configError ∧
    (verifyOrBuildCache ⟨none, fun _ => none, fun _ => true⟩ []).msgs
      = [.errorMsg] ∧
    workerExitCode (verifyOrBuildCache
      ⟨none, fun _ => none, fun _ => true⟩ []).result = some 1 ∧
    masterOnMessage 4 .errorMsg = .crashReferenceError ∧
    spawnedServers (masterOnMessage 4 .errorMsg) = 0 ∧
    masterHaltsNonZero (masterOnMessage 4 .errorMsg) = true :=
  claim7_abortedOnRegistryFailure _ _ 4 rfl rfl

/-- Witness for C2 at the spec's end-to-end scenario: registry
`{"A": ["X","Y"]}`, an on-disk asset for `A/X` only; one attempt succeeds
and one fails, yet the cache is marked initialized and readiness is
signalled. -/
theorem claim2_witness :
    ∃ succeeded failed,
      (verifyOrBuildCache
        ⟨some [("A", ["X", "Y"])],
         fun k => if k = "A.X" then some [1, 2] else none,
         fun _ => true⟩ []).result = .warmed succeeded failed ∧
      succeeded + failed = (registryPairs [("A", ["X", "Y"])]).length ∧
      succeeded = ((registryPairs [("A", ["X", "Y"])]).filter
        (fun p => warmOk
          ⟨some [("A", ["X", "Y"])],
           fun k => if k = "A.X" then some [1, 2] else none,
           fun _ => true⟩ (assetKey p.1 p.2))).length ∧
      (∀ f s b, (f, s) ∈ registryPairs [("A", ["X", "Y"])] →
        (if assetKey f s = "A.X" then some [1, 2] else none) = some b →
        true = true →
        cacheRead (verifyOrBuildCache
          ⟨some [("A", ["X", "Y"])],
           fun k => if k = "A.X" then some [1, 2] else none,
           fun _ => true⟩ []).cache (assetKey f s) = some (.bytes b)) ∧
      truthyVal (cacheRead (verifyOrBuildCache
        ⟨some [("A", ["X", "Y"])],
         fun k => if k = "A.X" then some [1, 2] else none,
         fun _ => true⟩ []).cache "initialized") = true ∧
      warmReportsSuccess (verifyOrBuildCache
        ⟨some [("A", ["X", "Y"])],
         fun k => if k = "A.X" then some [1, 2] else none,
         fun _ => true⟩ []).result = true ∧
      (verifyOrBuildCache
        ⟨some [("A", ["X", "Y"])],
         fun k => if k = "A.X" then some [1, 2] else none,
         fun _ => true⟩ []).msgs = [.cacheReady] :=
  claim2_settleAllWarmup _ [] [("A", ["X", "Y"])] rfl rfl rfl rfl

/-- C4: on the leaf route with a functioning cache read, the response is
400 exactly when the feature is not a registry key or the site code is not
in the feature's registry list (whatever the cache holds), and 404 exactly
when both are valid per the registry but no CacheEntry exists under the
composite key. -/
theorem claim4_status400vs404 (reg : Registry) (c : Cache)
    (feature siteCode : String) :
    ((∃ r, leafRoute reg c false feature siteCode = some r ∧ r.status = 400)
      ↔ ¬(feature ∈ registryKeys reg ∧
            siteCode ∈ registrySites reg feature)) ∧
    ((∃ r, leafRoute reg c false feature siteCode = some r ∧ r.status = 404)
      ↔ (feature ∈ registryKeys reg ∧ siteCode ∈ registrySites reg feature ∧
          cacheRead c (assetKey feature siteCode) = none)) := by
  by_cases hf : feature ∈ registryKeys reg
  · by_cases hs : siteCode ∈ registrySites reg feature
    · have hval : leafRoute reg c false feature siteCode =
          match getAssetData c false (assetKey feature siteCode) with
          | .raised => none
          | .absent => some ⟨404,
              .text "Feature and Site Code are valid but asset not found",
              none, none⟩
          | .data b =>
            some ⟨200, .asset b, some "application/json", none⟩ := by
        rw [leafRoute, if_neg (by simp [hf]), if_neg (by simp [hs])]
      rcases hread : cacheRead c (assetKey feature siteCode) with _ | v
      · have hget : getAssetData c false (assetKey feature siteCode)
            = .absent := by simp [getAssetData, hread]
        rw [hget] at hval
        rw [hval]
        constructor
        · simp [hf, hs]
        · simp [hf, hs, hread]
      · rcases hb : bufferFrom v with _ | b
        · have hget : getAssetData c false (assetKey feature siteCode)
              = .raised := by simp [getAssetData, hread, hb]
          rw [hget] at hval
          rw [hval]
          constructor
          · simp [hf, hs]
          · simp [hf, hs, hread]
        · have hget : getAssetData c false (assetKey feature siteCode)
              = .data b := by simp [getAssetData, hread, hb]
          rw [hget] at hval
          rw [hval]
          constructor
          · simp [hf, hs]
          · simp [hf, hs, hread]
    · have hroute : leafRoute reg c false feature siteCode =
          some ⟨400, .text "Site Code not valid for this Feature",
            none, none⟩ := by
        rw [leafRoute, if_neg (by simp [hf]), if_pos (by simp [hs])]
      rw [hroute]
      constructor
      · simp [hf, hs]
      · simp [hs]
  · have hroute : leafRoute reg c false feature siteCode =
        some ⟨400, .text "Invalid Feature", none, none⟩ := by
      rw [leafRoute, if_pos (by simp [hf])]
    rw [hroute]
    constructor
    · simp [hf]
    · simp [hf]

/-- C8: for every (feature, siteCode) pair of the registry, after warm-up
settles from a cold cache the leaf route always resolves a response — never
a rejection (Koa 500) and never a hang, a cache-read error or absent entry
resolving instead of raising — and that response is either 200 carrying
exactly the on-disk SiteAsset bytes, or 404. -/
theorem claim8_safeLeafServing (env : Env) (c : Cache) (reg : Registry)
    (f s : String) (readErr : Bool)
    (hnd : (registryKeys reg).Nodup)
    (hinit : truthyVal (cacheRead c "initialized") = false)
    (hreg : env.diskFeatures = some reg)
    (hsf : env.storeOk "features" = true)
    (hsi : env.storeOk "initialized" = true)
    (hcold : cacheRead c (assetKey f s) = none)
    (hpair : (f, s) ∈ registryPairs reg) :
    ∃ resp,
      leafRoute reg (verifyOrBuildCache env c).cache readErr f s
        = some resp ∧
      (resp.status = 404 ∨
        (resp.status = 200 ∧ ∃ b, env.diskAsset (assetKey f s) = some b ∧
          resp.body = .asset b)) := by
  obtain ⟨e, he, hef, hes⟩ := registryPairs_mem reg f s hpair
  have hfk : f ∈ registryKeys reg := hef ▸ List.mem_map.mpr ⟨e, he, rfl⟩
  have hsk : s ∈ registrySites reg f := by
    rw [← hef, registrySites_of_mem reg e hnd he]
    exact hes
  have heq := verifyOrBuildCache_eq_warmed env c reg hinit hreg hsf hsi
  have hfc : cacheRead (verifyOrBuildCache env c).cache (assetKey f s) =
      if (assetKey f s ∈ (registryPairs reg).map
            (fun p => assetKey p.1 p.2) ∧ warmOk env (assetKey f s))
      then (env.diskAsset (assetKey f s)).map .bytes
      else none := by
    rw [heq]
    show cacheRead (cacheStore _ "initialized" (.bool true)) _ = _
    rw [cacheRead_store_other _ _ _ _
        (Ne.symm (ne_assetKey_of_noDot _ f s (by decide))),
      cacheAllAssetsGo_read,
      cacheRead_store_other c "features" (assetKey f s) (.reg reg)
        (Ne.symm (ne_assetKey_of_noDot _ f s (by decide))),
      hcold]
  by_cases hre : readErr = true
  · refine ⟨⟨404,
      .text "Feature and Site Code are valid but asset not found",
      none, none⟩, ?_, Or.inl rfl⟩
    rw [leafRoute, if_neg (by simp [hfk]), if_neg (by simp [hsk])]
    have hget : getAssetData (verifyOrBuildCache env c).cache readErr
        (assetKey f s) = .absent := by simp [getAssetData, hre]
    rw [hget]
  · have hre' : readErr = false := by simpa using hre
    by_cases hw : warmOk env (assetKey f s)
    · have hmem : assetKey f s ∈ (registryPairs reg).map
          (fun p => assetKey p.1 p.2) :=
        List.mem_map.mpr ⟨(f, s), hpair, rfl⟩
      obtain ⟨b, hb⟩ : ∃ b, env.diskAsset (assetKey f s) = some b := by
        rcases hdd : env.diskAsset (assetKey f s) with _ | b
        · rw [warmOk, hdd] at hw; simp at hw
        · exact ⟨b, rfl⟩
      rw [if_pos ⟨hmem, hw⟩, hb] at hfc
      refine ⟨⟨200, .asset b, some "application/json", none⟩, ?_,
        Or.inr ⟨rfl, b, hb, rfl⟩⟩
      rw [leafRoute, if_neg (by simp [hfk]), if_neg (by simp [hsk])]
      have hget : getAssetData (verifyOrBuildCache env c).cache readErr
          (assetKey f s) = .data b := by
        simp [getAssetData, hre', hfc, bufferFrom]
      rw [hget]
    · have hw' : warmOk env (assetKey f s) = false := by simpa using hw
      rw [if_neg (by simp [hw'])] at hfc
      refine ⟨⟨404,
        .text "Feature and Site Code are valid but asset not found",
        none, none⟩, ?_, Or.inl rfl⟩
      rw [leafRoute, if_neg (by simp [hfk]), if_neg (by simp [hsk])]
      have hget : getAssetData (verifyOrBuildCache env c).cache readErr
          (assetKey f s) = .absent := by simp [getAssetData, hre', hfc]
      rw [hget]

/-- Witness for C8: registry `{"A": ["X","Y"]}` with an asset on disk for
`A/X` only; the warmed cache serves `A/X` with 200 and the on-disk bytes
(or 404 had the read errored) and `A/Y` resolves 404 — instantiated here
at the pair ("A", "Y") with no read error. -/
theorem claim8_witness :
    ∃ resp,
      leafRoute [("A", ["X", "Y"])]
        (verifyOrBuildCache
          ⟨some [("A", ["X", "Y"])],
           fun k => if k = "A.X" then some [1, 2] else none,
           fun _ => true⟩ []).cache false "A" "Y" = some resp ∧
      (resp.status = 404 ∨
        (resp.status = 200 ∧
          ∃ b, (if assetKey "A" "Y" = "A.X"
                then some [1, 2] else none) = some b ∧
            resp.body = .asset b)) :=
  claim8_safeLeafServing _ [] [("A", ["X", "Y"])] "A" "Y" false
    (by decide) rfl rfl rfl rfl rfl (by decide)

theorem gzip_warmGo_read (gz : Bytes → Bytes)
    (diskAsset : String → Option Bytes) (storeOk : String → Bool)
    (pairs : List (String × String)) (c : Cache) (k : String) :
    cacheRead (GzipApi.warmGo gz diskAsset storeOk pairs c) k =
      if (k ∈ pairs.map (fun p => assetKey p.1 p.2) ∧
            (diskAsset k).isSome ∧ storeOk k)
      then (diskAsset k).map (fun b => .bytes (gz b))
      else cacheRead c k := by
  induction pairs generalizing c with
  | nil => simp [GzipApi.warmGo]
  | cons p rest ih =>
    obtain ⟨f, s⟩ := p
    simp only [GzipApi.warmGo]
    rw [ih]
    by_cases hk : k = assetKey f s
    · subst hk
      rcases hdd : diskAsset (assetKey f s) with _ | b
      · simp [hdd]
      · by_cases hs : storeOk (assetKey f s)
        · by_cases hr : assetKey f s ∈ rest.map (fun p => assetKey p.1 p.2)
          · simp [hdd, hs, hr]
          · simp [hdd, hs, hr, cacheRead_store_self]
        · simp [hdd, hs]
    · have hmem : (k ∈ assetKey f s :: rest.map (fun p => assetKey p.1 p.2))
          = (k ∈ rest.map (fun p => assetKey p.1 p.2)) := by
        simp [List.mem_cons, hk]
      have hstep : cacheRead
          (match diskAsset (assetKey f s) with
            | some b => if storeOk (assetKey f s)
                then cacheStore c (assetKey f s) (.bytes (gz b)) else c
            | none => c) k = cacheRead c k := by
        rcases hdd : diskAsset (assetKey f s) with _ | b
        · rfl
        · by_cases hs : storeOk (assetKey f s)
          · simp [hs, cacheRead_store_other c _ k _ hk]
          · simp [hs]
      rw [hstep]
      simp only [List.map_cons, hmem]

/-- C5: in the gzip variant, a warmed (feature, siteCode) asset is stored as
`gz` applied exactly once to the on-disk bytes — for an arbitrary encoder
`gz`, so a second application would be visible — and a 200 on the leaf
route serves exactly those stored bytes unchanged with
`Content-Type: application/json` and `Content-Encoding: gzip`. -/
theorem claim5_compressedOnceServedAsIs (gz : Bytes → Bytes)
    (diskAsset : String → Option Bytes) (storeOk : String → Bool)
    (reg : Registry) (c : Cache) (f s : String) (b : Bytes)
    (hnd : (registryKeys reg).Nodup)
    (hpair : (f, s) ∈ registryPairs reg)
    (hb : diskAsset (assetKey f s) = some b)
    (hs : storeOk (assetKey f s) = true) :
    cacheRead (GzipApi.warmCache gz diskAsset storeOk reg c) (assetKey f s)
      = some (.bytes (gz b)) ∧
    GzipApi.leafRoute reg (GzipApi.warmCache gz diskAsset storeOk reg c)
        false f s
      = some ⟨200, .asset (gz b), some "application/json", some "gzip"⟩ := by
  obtain ⟨e, he, hef, hes⟩ := registryPairs_mem reg f s hpair
  have hfk : f ∈ registryKeys reg := hef ▸ List.mem_map.mpr ⟨e, he, rfl⟩
  have hsk : s ∈ registrySites reg f := by
    rw [← hef, registrySites_of_mem reg e hnd he]
    exact hes
  have hmem : assetKey f s ∈ (registryPairs reg).map
      (fun p => assetKey p.1 p.2) :=
    List.mem_map.mpr ⟨(f, s), hpair, rfl⟩
  have hread : cacheRead (GzipApi.warmCache gz diskAsset storeOk reg c)
      (assetKey f s) = some (.bytes (gz b)) := by
    rw [GzipApi.warmCache, gzip_warmGo_read,
      if_pos ⟨hmem, by simp [hb], hs⟩, hb]
    rfl
  refine ⟨hread, ?_⟩
  rw [GzipApi.leafRoute, if_neg (by simp [hfk]), if_neg (by simp [hsk])]
  have hget : GzipApi.getAssetData
      (GzipApi.warmCache gz diskAsset storeOk reg c) false (assetKey f s)
      = .data (gz b) := by
    simp [GzipApi.getAssetData, hread, bufferFrom]
  rw [hget]

/-- Witness for C5 at a concrete encoder (prepend a zero byte), registry
`{"A": ["X"]}`, and on-disk bytes `[1, 2]` for `A/X`. -/
theorem claim5_witness :
    cacheRead (GzipApi.warmCache (fun b => 0 :: b)
        (fun k => if k = "A.X" then some [1, 2] else none)
        (fun _ => true) [("A", ["X"])] []) (assetKey "A" "X")
      = some (.bytes (0 :: [1, 2])) ∧
    GzipApi.leafRoute [("A", ["X"])]
        (GzipApi.warmCache (fun b => 0 :: b)
          (fun k => if k = "A.X" then some [1, 2] else none)
          (fun _ => true) [("A", ["X"])] []) false "A" "X"
      = some ⟨200, .asset (0 :: [1, 2]), some "application/json",
          some "gzip"⟩ :=
  claim5_compressedOnceServedAsIs (fun b => 0 :: b)
    (fun k => if k = "A.X" then some [1, 2] else none)
    (fun _ => true) [("A", ["X"])] [] "A" "X" [1, 2]
    (by decide) (by decide) rfl rfl

/-- C1: for a leaf that is an array of 2 or 3 finite numbers `[x, y(, z)]`,
`sanitizeCoordinates` emits `[y, x]` when `x < 0` and otherwise drops the
coordinate (returning the empty array) while logging a warning — it always
returns rather than raising; recursion over nested arrays maps the
transformation over the elements, preserving the nesting structure; and a
non-array input is returned unchanged. -/
theorem claim1_sanitizeContract :
    (∀ x y : ℚ, x < 0 →
      sanitizeCoordinates (.arr [.num (.fin x), .num (.fin y)])
        = (.arr [.num (.fin y), .num (.fin x)], [])) ∧
    (∀ x y z : ℚ, x < 0 →
      (sanitizeCoordinates
        (.arr [.num (.fin x), .num (.fin y), .num (.fin z)])).1
        = .arr [.num (.fin y), .num (.fin x)]) ∧
    (∀ x y : ℚ, 0 ≤ x →
      (sanitizeCoordinates (.arr [.num (.fin x), .num (.fin y)])).1
          = .arr [] ∧
      .nonNegativeX ∈
        (sanitizeCoordinates (.arr [.num (.fin x), .num (.fin y)])).2) ∧
    (∀ x y z : ℚ, 0 ≤ x →
      (sanitizeCoordinates
        (.arr [.num (.fin x), .num (.fin y), .num (.fin z)])).1
          = .arr [] ∧
      .nonNegativeX ∈
        (sanitizeCoordinates
          (.arr [.num (.fin x), .num (.fin y), .num (.fin z)])).2) ∧
    (∀ l : List JVal, headIsArr l = true →
      (sanitizeCoordinates (.arr l)).1
        = .arr (l.map (fun v => (sanitizeCoordinates v).1))) ∧
    (∀ n : JNum, sanitizeCoordinates (.num n) = (.num n, [])) ∧
    sanitizeCoordinates .other = (.other, []) := by
  refine ⟨?_, ?_, ?_, ?_, ?_, ?_, ?_⟩
  · intro x y hx
    have hx' : ¬(0 ≤ x) := not_le.mpr hx
    simp [sanitizeCoordinates, sanitizeLeaf, headIsArr, isFiniteNum, hx,
      hx']
  · intro x y z hx
    have hx' : ¬(0 ≤ x) := not_le.mpr hx
    simp [sanitizeCoordinates, sanitizeLeaf, headIsArr, isFiniteNum, hx,
      hx']
  · intro x y hx
    have hx' : ¬(x < 0) := not_lt.mpr hx
    constructor <;>
      simp [sanitizeCoordinates, sanitizeLeaf, headIsArr, isFiniteNum, hx']
  · intro x y z hx
    have hx' : ¬(x < 0) := not_lt.mpr hx
    constructor <;>
      simp [sanitizeCoordinates, sanitizeLeaf, headIsArr, isFiniteNum, hx']
  · intro l hl
    simp [sanitizeCoordinates, hl, sanitizeList_fst]
  · intro n
    simp [sanitizeCoordinates]
  · simp [sanitizeCoordinates]

/-- Witness for C1 at the spec's examples: `[-105.2, 40.1]` flips to
`[40.1, -105.2]`, `[12.0, 40.1]` is dropped with a warning, the nested
input `[[[-105.2, 40.1], [-106.0, 41.0]]]` is transformed elementwise, and
a non-array is passed through. -/
theorem claim1_witness :
    sanitizeCoordinates
        (.arr [.num (.fin (-526/5)), .num (.fin (401/10))])
      = (.arr [.num (.fin (401/10)), .num (.fin (-526/5))], []) ∧
    ((sanitizeCoordinates
        (.arr [.num (.fin 12), .num (.fin (401/10))])).1 = .arr [] ∧
      .nonNegativeX ∈ (sanitizeCoordinates
        (.arr [.num (.fin 12), .num (.fin (401/10))])).2) ∧
    (sanitizeCoordinates
        (.arr [.arr [.num (.fin (-526/5)), .num (.fin (401/10))],
               .arr [.num (.fin (-106)), .num (.fin 41)]])).1
      = .arr ([.arr [.num (.fin (-526/5)), .num (.fin (401/10))],
               .arr [.num (.fin (-106)), .num (.fin 41)]].map
          (fun v => (sanitizeCoordinates v).1)) ∧
    sanitizeCoordinates (.num .nan) = (.num .nan, []) :=
  ⟨claim1_sanitizeContract.1 (-526/5) (401/10) (by norm_num),
   claim1_sanitizeContract.2.2.1 12 (401/10) (by norm_num),
   claim1_sanitizeContract.2.2.2.2.1
     [.arr [.num (.fin (-526/5)), .num (.fin (401/10))],
      .arr [.num (.fin (-106)), .num (.fin 41)]] rfl,
   claim1_sanitizeContract.2.2.2.2.2.1 .nan⟩

/-- C10: a leaf coordinate that `sanitizeCoordinates` drops — a bad shape
(wrong length or a non-finite component) or a finite pair with `x >= 0` —
yields the empty array `[]` in that leaf's position, and an enclosing
coordinate list keeps its number of elements (the dropped leaf remains as
an empty-array placeholder rather than being removed). -/
theorem claim10_dropKeepsPlaceholder :
    (∀ l : List JVal, headIsArr l = false →
      ¬((l.length = 2 ∨ l.length = 3) ∧ l.all isFiniteNum = true) →
      (sanitizeCoordinates (.arr l)).1 = .arr []) ∧
    (∀ x y : ℚ, 0 ≤ x →
      (sanitizeCoordinates (.arr [.num (.fin x), .num (.fin y)])).1
        = .arr []) ∧
    (∀ x y z : ℚ, 0 ≤ x →
      (sanitizeCoordinates
        (.arr [.num (.fin x), .num (.fin y), .num (.fin z)])).1
        = .arr []) ∧
    (∀ l : List JVal, headIsArr l = true →
      ∃ m : List JVal, (sanitizeCoordinates (.arr l)).1 = .arr m ∧
        m.length = l.length) := by
  refine ⟨?_, ?_, ?_, ?_⟩
  · intro l hl hbad
    have harr : sanitizeCoordinates (.arr l) = sanitizeLeaf l := by
      simp [sanitizeCoordinates, hl]
    rw [harr, sanitizeLeaf, if_neg hbad]
  · intro x y hx
    have hx' : ¬(x < 0) := not_lt.mpr hx
    simp [sanitizeCoordinates, sanitizeLeaf, headIsArr, isFiniteNum, hx']
  · intro x y z hx
    have hx' : ¬(x < 0) := not_lt.mpr hx
    simp [sanitizeCoordinates, sanitizeLeaf, headIsArr, isFiniteNum, hx']
  · intro l hl
    refine ⟨l.map (fun v => (sanitizeCoordinates v).1), ?_,
      List.length_map l _⟩
    simp [sanitizeCoordinates, hl, sanitizeList_fst]

/-- Witness for C10: the dropped leaves `[12, 40.1]` (non-negative x),
`[other]` (bad shape), and a nested list `[[12, 40.1], [-1, 2]]` keeping
both positions with an empty placeholder first. -/
theorem claim10_witness :
    (sanitizeCoordinates (.arr [.other])).1 = .arr [] ∧
    (sanitizeCoordinates (.arr [.num (.fin 12), .num (.fin (401/10))])).1
      = .arr [] ∧
    (∃ m : List JVal,
      (sanitizeCoordinates
        (.arr [.arr [.num (.fin 12), .num (.fin (401/10))],
               .arr [.num (.fin (-1)), .num (.fin 2)]])).1 = .arr m ∧
      m.length = ([.arr [.num (.fin 12), .num (.fin (401/10))],
                   .arr [.num (.fin (-1)), .num (.fin 2)]] :
                    List JVal).length) :=
  ⟨claim10_dropKeepsPlaceholder.1 [.other] rfl (by decide),
   claim10_dropKeepsPlaceholder.2.1 12 (401/10) (by norm_num),
   claim10_dropKeepsPlaceholder.2.2.2
     [.arr [.num (.fin 12), .num (.fin (401/10))],
      .arr [.num (.fin (-1)), .num (.fin 2)]] rfl⟩

/-- Counterexample to C6 as stated: both records carry an `areaKm2`
property (values 0 and 4.5) and resolve to site code "ABBY", yet the
merged `areaKm2` is 0, not the sum 4.5 — the code sums only when *both*
values are truthy (nonzero), and 0 is falsy in JS. -/
theorem claim6_counterexample :
    (geojsonToSites
      (GeoJSON.mk (some
        [⟨some ⟨"Polygon", .arr [.num (.fin (-1)), .num (.fin 2)]⟩,
          Props.mk (some "ABBY") (some 0)⟩,
         ⟨some ⟨"Polygon", .arr [.num (.fin (-4)), .num (.fin 5)]⟩,
          Props.mk (some "ABBY") (some (9/2))⟩]))
      id).map
        (fun sites => sites.map (fun p => (p.1, p.2.properties.areaKm2)))
      = some [("ABBY", some 0)] ∧
    some (0 : ℚ) ≠ some ((0 : ℚ) + 9/2) := by
  constructor
  · simp [geojsonToSites, sitesStep, sanitizeCoordinates, sanitizeLeaf,
      headIsArr, isFiniteNum, List.foldlM, lookupSite, updateSite, jpush,
      truthyStr, truthyNum]
  · norm_num

/-- C6 (amended): records with no resolvable (truthy) site code are
dropped; when two records resolve to the same truthy site code, the second
record's sanitized coordinates are appended as a single element into the
first record's geometry coordinate list; and when both records carry a
truthy (nonzero) `areaKm2` the resulting `areaKm2` is their sum (3.0 and
4.5 merge to 7.5). A zero (falsy) `areaKm2`, though present, does not
trigger the summation. -/
theorem claim6_amendedMerge :
    (∀ (α : Type) (gp : α → Props) (sites : List (String × SiteAsset))
        (r : GRecord α),
      truthyStr (gp r.properties).siteCode = false →
      sitesStep gp sites r = some sites) ∧
    (∀ (sc : String) (a1 a2 : ℚ) (t1 t2 : String) (c1 c2 : JVal)
        (m : List JVal),
      sc ≠ "" → a1 ≠ 0 → a2 ≠ 0 →
      (sanitizeCoordinates c1).1 = .arr m →
      geojsonToSites
        (GeoJSON.mk (some
          [⟨some ⟨t1, c1⟩, Props.mk (some sc) (some a1)⟩,
           ⟨some ⟨t2, c2⟩, Props.mk (some sc) (some a2)⟩]))
        id
      = some [(sc, ⟨"Feature", Props.mk (some sc) (some (a1 + a2)),
          ⟨t1, .arr (m ++ [(sanitizeCoordinates c2).1])⟩⟩)]) := by
  constructor
  · intro α gp sites r hfalsy
    rcases hg : r.geometry with _ | g
    · simp [sitesStep, hg]
    · simp [sitesStep, hg, hfalsy]
  · intro sc a1 a2 t1 t2 c1 c2 m hsc ha1 ha2 hm
    simp [geojsonToSites, List.foldlM, sitesStep, hm, lookupSite,
      updateSite, jpush, truthyStr, truthyNum, hsc, ha1, ha2]

/-- Witness for the amended C6: site "ABBY" with areas 3.0 and 4.5 merges
to 7.5 with the second sanitized coordinate list appended; and a record
whose extracted site code is empty is dropped. -/
theorem claim6_witness :
    sitesStep (α := Props) id [] ⟨none, Props.mk (some "") (some 1)⟩
      = some [] ∧
    geojsonToSites
      (GeoJSON.mk (some
        [⟨some ⟨"Polygon", .arr [.num (.fin (-1)), .num (.fin 2)]⟩,
          Props.mk (some "ABBY") (some 3)⟩,
         ⟨some ⟨"Polygon", .arr [.num (.fin (-4)), .num (.fin 5)]⟩,
          Props.mk (some "ABBY") (some (9/2))⟩]))
      id
    = some [("ABBY", ⟨"Feature", Props.mk (some "ABBY") (some (3 + 9/2)),
        ⟨"Polygon", .arr ([.num (.fin 2), .num (.fin (-1))] ++
          [(sanitizeCoordinates
              (.arr [.num (.fin (-4)), .num (.fin 5)])).1])⟩⟩)] :=
  ⟨claim6_amendedMerge.1 Props id [] ⟨none, Props.mk (some "") (some 1)⟩
      rfl,
   claim6_amendedMerge.2 "ABBY" 3 (9/2) "Polygon" "Polygon"
     (.arr [.num (.fin (-1)), .num (.fin 2)])
     (.arr [.num (.fin (-4)), .num (.fin 5)])
     [.num (.fin 2), .num (.fin (-1))]
     (by decide) (by norm_num) (by norm_num)
     (by norm_num [sanitizeCoordinates, sanitizeLeaf, headIsArr,
       isFiniteNum])⟩

theorem setKey_nil (m : List (String × List String)) (k : String) :
    setKey m k [] = m := by
  have hpt : ∀ p : String × List String,
      (if p.1 == k then (p.1, p.2 ++ ([] : List String)) else p) = p := by
    intro p
    split <;> simp
  simp only [setKey]
  rw [List.map_congr_left (fun p _ => hpt p)]
  simp

theorem lookupFJ_setKey_self (m : List (String × List String)) (k : String)
    (v : List String) :
    lookupFJ (setKey m k v) k = (lookupFJ m k).map (· ++ v) := by
  induction m with
  | nil => simp [lookupFJ, setKey]
  | cons p rest ih =>
    by_cases hp : p.1 = k
    · simp [lookupFJ, setKey, List.find?_cons, hp]
    · have h1 : setKey (p :: rest) k v = p :: setKey rest k v := by
        simp [setKey, hp]
      rw [h1]
      simp only [lookupFJ]
      rw [List.find?_cons_of_neg _ (by simp [hp]),
        List.find?_cons_of_neg _ (by simp [hp])]
      exact ih

theorem lookupFJ_setKey_other (m : List (String × List String))
    (k k' : String) (v : List String) (h : k' ≠ k) :
    lookupFJ (setKey m k v) k' = lookupFJ m k' := by
  induction m with
  | nil => simp [lookupFJ, setKey]
  | cons p rest ih =>
    by_cases hp : p.1 = k
    · have h1 : setKey (p :: rest) k v
          = (p.1, p.2 ++ v) :: setKey rest k v := by
        simp [setKey, hp]
      rw [h1]
      simp only [lookupFJ]
      rw [List.find?_cons_of_neg _ (by simp [hp, Ne.symm h]),
        List.find?_cons_of_neg _ (by simp [hp, Ne.symm h])]
      exact ih
    · have h1 : setKey (p :: rest) k v = p :: setKey rest k v := by
        simp [setKey, hp]
      rw [h1]
      by_cases hp' : p.1 = k'
      · simp [lookupFJ, List.find?_cons, hp']
      · simp only [lookupFJ]
        rw [List.find?_cons_of_neg _ (by simp [hp']),
          List.find?_cons_of_neg _ (by simp [hp'])]
        exact ih

theorem outfilesStep_eq {α : Type} (acc : List (String × List String))
    (cfg : FeatureCfg α) (hok : parseOk cfg) :
    outfilesStep acc cfg = some (setKey acc cfg.key
      (expectedSiteCodes cfg)) := by
  rcases hg : cfg.geojson with _ | gj
  · simp only [outfilesStep, expectedSiteCodes, hg, setKey_nil]
  · have hsome := hok gj hg
    rcases hgs : geojsonToSites gj cfg.getProperties with _ | sites
    · rw [hgs] at hsome; cases hsome
    · by_cases he : sites.isEmpty
      · simp only [outfilesStep, expectedSiteCodes, hg, hgs, if_pos he,
          setKey_nil]
      · simp only [outfilesStep, expectedSiteCodes, hg, hgs, if_neg he]

theorem cfg_find?_of_nodup {α : Type} (cfgs : List (FeatureCfg α))
    (cfg : FeatureCfg α) (hnd : (cfgs.map (·.key)).Nodup) (hc : cfg ∈ cfgs) :
    cfgs.find? (fun d => d.key == cfg.key) = some cfg := by
  induction cfgs with
  | nil => cases hc
  | cons a rest ih =>
    rcases List.mem_cons.mp hc with rfl | hmem
    · simp [List.find?_cons_of_pos]
    · have ha : a.key ≠ cfg.key := by
        intro hae
        have hin : cfg.key ∈ rest.map (·.key) :=
          List.mem_map.mpr ⟨cfg, hmem, rfl⟩
        rw [List.map_cons] at hnd
        exact (List.nodup_cons.mp hnd).1 (hae ▸ hin)
      rw [List.find?_cons_of_neg _ (by simp [ha])]
      exact ih (List.nodup_cons.mp (by rwa [List.map_cons] at hnd)).2 hmem

theorem lookupFJ_initMap {α : Type} (cfgs : List (FeatureCfg α))
    (cfg : FeatureCfg α) (hc : cfg ∈ cfgs) :
    lookupFJ (cfgs.map (fun c => (c.key, ([] : List String)))) cfg.key
      = some [] := by
  induction cfgs with
  | nil => cases hc
  | cons d rest ih =>
    by_cases hd : d.key = cfg.key
    · simp [lookupFJ, List.find?_cons, hd]
    · rcases List.mem_cons.mp hc with rfl | hmem
      · exact absurd rfl hd
      · simp only [List.map_cons, lookupFJ]
        rw [List.find?_cons_of_neg _ (by simp [hd])]
        exact ih hmem

theorem outfilesGo_spec {α : Type} (rest : List (FeatureCfg α))
    (acc : List (String × List String))
    (hok : ∀ c ∈ rest, parseOk c) (hnd : (rest.map (·.key)).Nodup) :
    ∃ out, rest.foldlM outfilesStep acc = some out ∧
      ∀ k, lookupFJ out k =
        match rest.find? (fun d => d.key == k) with
        | some d => (lookupFJ acc k).map (· ++ expectedSiteCodes d)
        | none => lookupFJ acc k := by
  induction rest generalizing acc with
  | nil => exact ⟨acc, rfl, fun k => rfl⟩
  | cons c rest ih =>
    have hstep := outfilesStep_eq acc c (hok c (List.mem_cons_self c rest))
    have hnd' : (rest.map (·.key)).Nodup :=
      (List.nodup_cons.mp (by simpa using hnd)).2
    have hkey : c.key ∉ rest.map (·.key) :=
      (List.nodup_cons.mp (by simpa using hnd)).1
    obtain ⟨out, hout, hchar⟩ :=
      ih (setKey acc c.key (expectedSiteCodes c))
        (fun d hd => hok d (List.mem_cons_of_mem c hd)) hnd'
    refine ⟨out, ?_, ?_⟩
    · rw [List.foldlM_cons, hstep]
      simpa using hout
    · intro k
      by_cases hk : k = c.key
      · subst hk
        have hfr : rest.find? (fun d => d.key == c.key) = none := by
          apply List.find?_eq_none.mpr
          intro d hd
          simp only [beq_iff_eq]
          intro he
          exact hkey (he ▸ List.mem_map.mpr ⟨d, hd, rfl⟩)
        rw [hchar c.key, hfr, lookupFJ_setKey_self,
          List.find?_cons_of_pos _ (by simp)]
      · rw [hchar k, List.find?_cons_of_neg _ (by simp [Ne.symm hk])]
        rcases hfr : rest.find? (fun d => d.key == k) with _ | d <;>
          rw [lookupFJ_setKey_other _ _ _ _ hk]

/-- C9: with unique feature keys and no parse crash, output generation
succeeds and gives every feature key exactly its own entry: the sorted
parsed site codes when the feature yielded at least one site, and the
(initial) empty list when its source was invalid or it yielded zero sites
— so the keys with non-empty site-code lists are exactly the features that
yielded at least one successfully parsed site, and one feature's zero-site
abort never touches another feature's entry. -/
theorem claim9_registryFromParsedSites {α : Type}
    (cfgs : List (FeatureCfg α))
    (hok : ∀ c ∈ cfgs, parseOk c)
    (hnd : (cfgs.map (·.key)).Nodup) :
    ∃ out, generateOutfiles cfgs = some out ∧
      ∀ cfg ∈ cfgs,
        lookupFJ out cfg.key = some (expectedSiteCodes cfg) ∧
        (expectedSiteCodes cfg = [] ↔ parsedSiteCodes cfg = []) := by
  obtain ⟨out, hout, hchar⟩ :=
    outfilesGo_spec cfgs (cfgs.map (fun c => (c.key, []))) hok hnd
  refine ⟨out, hout, ?_⟩
  intro cfg hc
  constructor
  · rw [hchar cfg.key, cfg_find?_of_nodup cfgs cfg hnd hc,
      lookupFJ_initMap cfgs cfg hc]
    simp
  · rcases hg : cfg.geojson with _ | gj
    · simp [expectedSiteCodes, parsedSiteCodes, hg]
    · have hsome := hok cfg hc gj hg
      rcases hgs : geojsonToSites gj cfg.getProperties with _ | sites
      · rw [hgs] at hsome; cases hsome
      · by_cases he : sites.isEmpty
        · have hnil : sites = [] := by simpa using he
          simp [expectedSiteCodes, parsedSiteCodes, hg, hgs, hnil]
        · have hne : sites ≠ [] := by simpa using he
          have hexp : expectedSiteCodes cfg = sortedCodes sites := by
            simp only [expectedSiteCodes, hg, hgs, if_neg he]
          have hpar : parsedSiteCodes cfg = sites.map (·.1) := by
            simp only [parsedSiteCodes, hg, hgs, Option.getD_some]
          have hlen : (sortedCodes sites).length = sites.length := by
            rw [sortedCodes, List.length_insertionSort, List.length_map]
          apply iff_of_false
          · rw [hexp]
            intro h0
            rw [h0] at hlen
            exact hne (List.length_eq_zero.mp hlen.symm)
          · rw [hpar]
            intro h0
            exact hne (by simpa using h0)

/-- Witness for C9: feature "F1" parses one site ("ABBY"), feature "F2"
has an invalid source; generation succeeds with "F1" bound to its sorted
codes and "F2" left empty. -/
theorem claim9_witness :
    ∃ out, generateOutfiles
      [(⟨"F1", some (GeoJSON.mk (some
          [⟨some ⟨"Polygon", .arr [.num (.fin (-1)), .num (.fin 2)]⟩,
            Props.mk (some "ABBY") none⟩])), id⟩ : FeatureCfg Props),
       ⟨"F2", none, id⟩] = some out ∧
      ∀ cfg ∈ [(⟨"F1", some (GeoJSON.mk (some
          [⟨some ⟨"Polygon", .arr [.num (.fin (-1)), .num (.fin 2)]⟩,
            Props.mk (some "ABBY") none⟩])), id⟩ : FeatureCfg Props),
         ⟨"F2", none, id⟩],
        lookupFJ out cfg.key = some (expectedSiteCodes cfg) ∧
        (expectedSiteCodes cfg = [] ↔ parsedSiteCodes cfg = []) :=
  claim9_registryFromParsedSites _
    (by
      intro c hc
      rcases List.mem_cons.mp hc with rfl | hc2
      · intro gj hgj
        cases hgj
        norm_num [geojsonToSites, sitesStep, sanitizeCoordinates,
          sanitizeLeaf, headIsArr, isFiniteNum, List.foldlM, lookupSite,
          truthyStr]
        simp
      · rcases List.mem_cons.mp hc2 with rfl | hc3
        · intro gj hgj
          cases hgj
        · cases hc3)
    (by simp)
